import Mathlib

set_option maxRecDepth 40000

namespace TPIProg

/-!
Shallow embedding of the TPI programmer firmware (src/TPI_Programmer.ino):
the TPI frame codec, the NVM key sequence, device identification, the
ASCII-hex field decoder, and the streaming Intel-HEX loader `writeProgram`.
Machine bytes are modeled as `Nat` with explicit `% 256` / `% 65536`
truncation where the C code uses `uint8_t` / `unsigned short`.
-/

/-- Parity accumulator of `tpi_send_byte`:
`par ^= par >> 4; par ^= par >> 2; par ^= par >> 1` on a `uint8_t`. -/
def parByte (d : Nat) : Nat :=
  let d0 := d % 256
  let p1 := (d0 ^^^ (d0 >>> 4)) % 256
  let p2 := (p1 ^^^ (p1 >>> 2)) % 256
  (p2 ^^^ (p2 >>> 1)) % 256

/-- First SPI transfer of `tpi_send_byte`: `0x03 | (data << 3)` truncated to 8 bits
(2 idle bits, start bit, low 5 data bits, LSB first). -/
def tpi_send_lo (d : Nat) : Nat := (0x03 ||| ((d % 256) <<< 3)) % 256

/-- Second SPI transfer of `tpi_send_byte`: `0xf0 | (par << 3) | (data >> 5)`
truncated to 8 bits (high 3 data bits, parity, 2 stop bits, 2 idle bits). -/
def tpi_send_hi (d : Nat) : Nat :=
  (0xf0 ||| (parByte d <<< 3) ||| ((d % 256) >>> 5)) % 256

/-- `tpi_send_byte`: the pair of 8-bit SPI transfers emitted for one data byte. -/
def tpi_send_byte (d : Nat) : Nat × Nat := (tpi_send_lo d, tpi_send_hi d)

/-- Realignment loop of `tpi_receive_byte`: while `b1 != 0x7f`, shift `b2` left
carrying in bit 7 of `b1`, and shift `b1` left filling with an idle bit. -/
def alignLoop : Nat → Nat → Nat → Option Nat
  | 0, b1v, b2v => if b1v = 0x7f then some b2v else none
  | fuel+1, b1v, b2v =>
    if b1v = 0x7f then some b2v
    else
      alignLoop fuel (((b1v <<< 1) ||| 1) % 256)
        (((b2v <<< 1) ||| (if b1v &&& 0x80 = 0x80 then 1 else 0)) % 256)

/-- `tpi_receive_byte` over a modeled stream of SPI transfer results:
skip all-ones (idle) transfers, read a second transfer, read (and discard) a
third when the first transfer's low nibble is all ones, then realign. -/
def tpi_receive_byte : Nat → List Nat → Option Nat
  | _, [] => none
  | 0, _ :: _ => none
  | fuel+1, x :: rest =>
    if x = 0xff then tpi_receive_byte fuel rest
    else
      match rest with
      | [] => none
      | b2v :: rest2 =>
        if 0x0f &&& x = 0x0f then
          match rest2 with
          | [] => none
          | _b3 :: _ => alignLoop 8 x b2v
        else alignLoop 8 x b2v

/-- Bits of a byte in LSB-first (transmission) order. -/
def byteBitsLSB (b : Nat) : List Nat := (List.range 8).map fun i => (b >>> i) &&& 1

/-- Pack a list of bits (LSB first) into a value. -/
def bitsVal (bits : List Nat) : Nat := bits.foldr (fun bit acc => bit + 2 * acc) 0

/-- Group a bit stream into 8-bit SPI transfer values, dropping an incomplete tail. -/
def chunk8 : Nat → List Nat → List Nat
  | 0, _ => []
  | fuel+1, bits =>
    if 8 ≤ bits.length then bitsVal (bits.take 8) :: chunk8 fuel (bits.drop 8)
    else []

/-- The SPI byte stream seen by the receiver for one transmitted frame preceded
by `gap` extra idle bits, followed by trailing idle. -/
def mkStream (gap d : Nat) : List Nat :=
  chunk8 8 (List.replicate gap 1 ++ byteBitsLSB (tpi_send_lo d) ++
            byteBitsLSB (tpi_send_hi d) ++ List.replicate 32 1)

/-- Number of 1 bits among the 8 data bits. -/
def bitWeight (d : Nat) : Nat :=
  (List.range 8).countP fun i => ((d >>> i) &&& 1) == 1

/-- Device type codes from the source defines. -/
def Tiny4_5 : Nat := 10

def Tiny9 : Nat := 1

def Tiny10 : Nat := 1

def Tiny20 : Nat := 2

def Tiny40 : Nat := 4

def Tiny102 : Nat := 1

def Tiny104 : Nat := 1

/-- The signature match of `checkID`: the if-chain over the three ID bytes,
returning the device type it assigns, or `none` on the unknown-chip branch
(which assigns nothing). -/
def checkID_lookup (id1 id2 id3 : Nat) : Option Nat :=
  if id1 = 0x1E ∧ id2 = 0x8F ∧ id3 = 0x0A then some Tiny4_5
  else if id1 = 0x1E ∧ id2 = 0x8F ∧ id3 = 0x09 then some Tiny4_5
  else if id1 = 0x1E ∧ id2 = 0x90 ∧ id3 = 0x08 then some Tiny9
  else if id1 = 0x1E ∧ id2 = 0x90 ∧ id3 = 0x03 then some Tiny10
  else if id1 = 0x1E ∧ id2 = 0x91 ∧ id3 = 0x0f then some Tiny20
  else if id1 = 0x1E ∧ id2 = 0x92 ∧ id3 = 0x0e then some Tiny40
  else if id1 = 0x1E ∧ id2 = 0x90 ∧ id3 = 0x0c then some Tiny102
  else if id1 = 0x1E ∧ id2 = 0x90 ∧ id3 = 0x0b then some Tiny104
  else none

/-- Effect of `checkID` on the global `type`: assigned on a table match,
left untouched on the unknown branch. -/
def checkID_update (prev id1 id2 id3 : Nat) : Nat :=
  (checkID_lookup id1 id2 id3).getD prev

/-- The fixed 8-entry signature table of `checkID`. -/
def signatureTable : List ((Nat × Nat × Nat) × Nat) :=
  [((0x1E, 0x8F, 0x0A), Tiny4_5), ((0x1E, 0x8F, 0x09), Tiny4_5),
   ((0x1E, 0x90, 0x08), Tiny9), ((0x1E, 0x90, 0x03), Tiny10),
   ((0x1E, 0x91, 0x0f), Tiny20), ((0x1E, 0x92, 0x0e), Tiny40),
   ((0x1E, 0x90, 0x0c), Tiny102), ((0x1E, 0x90, 0x0b), Tiny104)]

/-- Addresses read by `checkID`: `setPointer(0x3FC0)` followed by three `SLDp`
auto-increment loads. -/
def checkID_readAddrs : List Nat := (List.range 3).map (0x3FC0 + ·)

/-- Byte emission loop of `send_skey`: while the key is nonzero, emit its low
byte and shift right by 8. -/
def skey_bytes (key : Nat) : List Nat :=
  if h : key = 0 then [] else (key % 256) :: skey_bytes (key / 256)
termination_by key
decreasing_by exact Nat.div_lt_self (Nat.pos_of_ne_zero h) (by norm_num)

/-- `send_skey`: the SKEY opcode `0xE0` followed by the emitted key bytes. -/
def send_skey (key : Nat) : List Nat := 0xE0 :: skey_bytes key

/-- The fixed NVM program-enable key. -/
def NVM_PROGRAM_ENABLE : Nat := 0x1289AB45CDD888FF

/-- The destructive per-character rewrite of `asciiHexToUShort`: decimal and
uppercase hex digits become their values; every other character code is kept
unchanged. -/
def hexDigitRewrite (c : Nat) : Nat :=
  if 48 ≤ c ∧ c ≤ 57 then c - 48
  else if 65 ≤ c ∧ c ≤ 70 then c - 65 + 10
  else c

/-- `asciiHexToUShort`: folds the (rewritten) characters into
`result = (result << 4) + digit`, truncated to an `unsigned short`; the second
component is the caller's buffer after the in-place rewrite. -/
def asciiHexToUShort (str : List Nat) : Nat × List Nat :=
  ((str.foldl (fun r c => r * 16 + hexDigitRewrite c) 0) % 65536,
   str.map hexDigitRewrite)

/-- The inline AVR `com`+`inc` checksum finalization: one's complement then
increment, on a `uint8_t`. -/
def asmComInc (s : Nat) : Nat := (((s % 256) ^^^ 0xFF) + 1) % 256

/-- The portable two's-complement finalization `(~sum + 1) & 0xFF`. -/
def portableTwoComp (s : Nat) : Nat := (256 - s % 256) % 256

/-- The session input-stream timeout in milliseconds (`timeout = 20000` in `setup`). -/
def timeoutMs : Nat := 20000

/-- The serial input stream: each character with its arrival time in milliseconds. -/
abbrev Input := List (Nat × Nat)

/-- Loader state of one `writeProgram` call: current time, remaining input,
the record-start time `startTime`, the running `checkSum`, the group accumulator
index `currentByte`, the session byte counter `progSize`, the target address
`adrs`, the 16-byte accumulator `data`, the target's programmed memory, the log
of flushed groups, and the `fileEnd` flag. -/
structure Machine where
  now : Nat
  input : Input
  startTime : Nat
  checkSum : Nat
  currentByte : Nat
  progSize : Nat
  adrs : Nat
  buf : List Nat
  mem : List (Nat × Nat)
  writes : List (Nat × List Nat)
  fileEnd : Bool
deriving Repr, DecidableEq

/-- Outcome of `writeProgram`: success with the byte count and the flushed
groups, one of the tagged failures, a verification failure, or an unbounded
block on missing input (`hang`). -/
inductive LoadResult where
  | success (progSize : Nat) (writes : List (Nat × List Nat))
  | errTimeout
  | errHex
  | errTooLarge
  | errChecksum (calculated received : Nat)
  | verifyFail (addr expected got : Nat)
  | hang
deriving Repr, DecidableEq

abbrev LoadM := Except LoadResult

/-- `Sread`: block until a character is available (forever, if none ever
arrives), then return it. -/
def sread (m : Machine) : LoadM (Nat × Machine) :=
  match m.input with
  | [] => .error .hang
  | (ta, c) :: rest => .ok (c, { m with now := max m.now ta, input := rest })

/-- The timeout-guarded availability wait
`while(Serial.available() < 1){ if(millis()-startTime > timeout) ... }`:
times out when the next character arrives more than `timeoutMs` after
`startTime` (or never arrives). -/
def waitAvail (m : Machine) : LoadM Machine :=
  match m.input with
  | [] => .error .errTimeout
  | (ta, _) :: _ =>
    if ta ≤ m.now then .ok m
    else if m.startTime + timeoutMs < ta then .error .errTimeout
    else .ok { m with now := ta }

/-- Read a 2-hex-digit field: two `Sread` calls into `temp`, then
`asciiHexToUShort(temp)`. -/
def readPair (m : Machine) : LoadM (Nat × Machine) := do
  let (c0, m) ← sread m
  let (c1, m) ← sread m
  .ok ((asciiHexToUShort [c0, c1]).1, m)

/-- Target memory read-back (most recent write wins; erased flash reads 0xFF). -/
def memLookup (mem : List (Nat × Nat)) (a : Nat) : Nat :=
  match mem with
  | [] => 0xFF
  | (x, v) :: rest => if x = a then v else memLookup rest a

/-- Accumulator read `data[i]`. -/
def bufGet (m : Machine) (i : Nat) : Nat := m.buf.getD i 0

/-- Zero-padding loop body:
`while(currentByte < 2*words){ data[currentByte] = 0; currentByte++; }`. -/
def padZerosGo : Nat → Machine → Machine
  | 0, m => m
  | fuel+1, m =>
    padZerosGo fuel
      { m with buf := m.buf.set m.currentByte 0, currentByte := m.currentByte + 1 }

/-- Zero-pad the accumulator up to index `target`. -/
def padZeros (m : Machine) (target : Nat) : Machine :=
  padZerosGo (target - m.currentByte) m

/-- Flush one full write group: reset `currentByte`, set the pointer to `adrs`,
issue the word-write command and the group's bytes (low byte first, sequential
auto-incremented addresses), then read every byte back and compare with the
accumulator; a mismatch fails the session, otherwise `adrs` advances by the
group size. -/
def flushGroup (words : Nat) (m : Machine) : LoadM Machine :=
  let n := 2 * words
  let bytes := (List.range n).map (bufGet m)
  let mem1 := (List.range n).foldl (fun mm i => (m.adrs + i, bufGet m i) :: mm) m.mem
  match (List.range n).find? (fun c => memLookup mem1 (m.adrs + c) != bufGet m c) with
  | some c => .error (.verifyFail m.adrs (bufGet m c) (memLookup mem1 (m.adrs + c)))
  | none =>
    .ok { m with currentByte := 0, mem := mem1,
                 writes := m.writes ++ [(m.adrs, bytes)], adrs := m.adrs + n }

/-- The data-byte loop `for(int k=0; k<linelength; k++)`: timeout-guarded wait,
read a 2-hex-digit byte into `data[currentByte]`, add it to the checksum,
advance the counters, enforce the capacity bound, zero-pad on `fileEnd`, and
flush when the accumulator reaches `2*words`. -/
def dataLoop (words cap : Nat) : Nat → Machine → LoadM Machine
  | 0, m => .ok m
  | k+1, m => do
    let m ← waitAvail m
    let (v, m) ← readPair m
    let byteV := v % 256
    let m := { m with buf := m.buf.set m.currentByte byteV,
                      checkSum := (m.checkSum + byteV) % 256,
                      currentByte := m.currentByte + 1,
                      progSize := m.progSize + 1 }
    if m.progSize > cap then .error .errTooLarge
    else
      let m := if m.fileEnd then padZeros m (2 * words) else m
      let m ← (if m.currentByte = 2 * words then flushGroup words m else .ok m)
      dataLoop words cap k m

/-- The type-2 skip loop `for (int i = 0; i<=linelength; i++)`: read a
2-hex-digit pair and fold it into the checksum, `linelength+1` times, with no
timeout guard and no write to the accumulator. -/
def skipLoop : Nat → Machine → LoadM Machine
  | 0, m => .ok m
  | k+1, m => do
    let (v, m) ← readPair m
    skipLoop k { m with checkSum := (m.checkSum + v) % 256 }

/-- One iteration of the record loop of `writeProgram`: leading-colon check
(tolerating one stray character), length, address, and type fields, then either
the type-2 skip loop — after which control returns directly to the record loop —
or the data loop followed by the trailing checksum read and comparison, which
sit inside the non-type-2 branch (the source's `else` block closes only after
the checksum check), exactly as the source orders them. -/
def recordStep (words cap : Nat) (m : Machine) : LoadM Machine := do
  let m := { m with startTime := m.now }
  let m ← waitAvail m
  let (c, m) ← sread m
  let m ← (if c = 58 then .ok m else do
    let (c2, m) ← sread m
    if c2 = 58 then .ok m else .error .errHex)
  let (lv, m) ← readPair m
  let ll := lv % 256
  let m := { m with checkSum := ll }
  let (a0, m) ← sread m
  let (a1, m) ← sread m
  let m := { m with checkSum := (m.checkSum + (asciiHexToUShort [a0, a1]).1) % 256 }
  let (a2, m) ← sread m
  let (a3, m) ← sread m
  let m := { m with checkSum := (m.checkSum + (asciiHexToUShort [a2, a3]).1) % 256 }
  let m := { m with adrs := ((asciiHexToUShort [a0, a1, a2, a3]).1 + 0x4000) % 65536 }
  let m := if ll ≠ 0 ∧ m.adrs = 0x4000 then { m with currentByte := 0 } else m
  let (tv, m) ← readPair m
  let someth := tv % 256
  let m := { m with checkSum := (m.checkSum + someth) % 256 }
  let m := if someth = 1 then { m with fileEnd := true } else m
  if someth = 2 then skipLoop (ll + 1) m
  else do
    let m ← dataLoop words cap ll m
    let m := { m with startTime := m.now }
    let m ← waitAvail m
    let (cv, m) ← readPair m
    let calcv := asmComInc m.checkSum
    let recv := cv % 256
    if calcv ≠ recv then .error (.errChecksum calcv recv)
    else .ok { m with checkSum := calcv }

/-- The record loop `while(!fileEnd)`, fueled by one more than the input
length; since every record iteration consumes at least one input character,
the fuel always outlasts the loop and never decides the outcome. -/
def writeProgramGo (words cap : Nat) : Nat → Machine → LoadResult
  | 0, m => if m.fileEnd then .success m.progSize m.writes else .hang
  | fuel+1, m =>
    if m.fileEnd then .success m.progSize m.writes
    else
      match recordStep words cap m with
      | .error e => e
      | .ok m' => writeProgramGo words cap fuel m'

/-- Initial loader state for one `writeProgram` call. -/
def initMachine (input : Input) : Machine :=
  { now := 0, input := input, startTime := 0, checkSum := 0, currentByte := 0,
    progSize := 0, adrs := 0, buf := List.replicate 16 0, mem := [],
    writes := [], fileEnd := false }

/-- `writeProgram` for a device of type code `ty`:
`words = (type!=Tiny4_5 ? type : 1)` and the capacity bound
`(type!=Tiny4_5 ? type*1024 : 512)`, then the record loop. -/
def writeProgram (ty : Nat) (input : Input) : LoadResult :=
  let words := if ty ≠ Tiny4_5 then ty else 1
  let cap := if ty ≠ Tiny4_5 then ty * 1024 else 512
  writeProgramGo words cap (input.length + 1) (initMachine input)

/-- Byte count reported on success. -/
def resultProgSize : LoadResult → Option Nat
  | .success p _ => some p
  | _ => none

/-- Uppercase hex character of a nibble. -/
def hexChar (n : Nat) : Nat := if n < 10 then 48 + n else 55 + n

/-- Two hex characters of a byte. -/
def byteChars (b : Nat) : List Nat := [hexChar (b / 16 % 16), hexChar (b % 16)]

/-- Characters of one Intel-HEX record with a correct checksum. -/
def recordChars (offset ty : Nat) (payload : List Nat) : List Nat :=
  let s := payload.length + offset / 256 % 256 + offset % 256 + ty +
           payload.foldl (· + ·) 0
  58 :: (byteChars payload.length ++ byteChars (offset / 256) ++
         byteChars (offset % 256) ++ byteChars ty ++
         (payload.map byteChars).flatten ++ byteChars (portableTwoComp s))

/-- Characters of the standard end-of-file record. -/
def eofChars : List Nat := recordChars 0 1 []

/-- Stamp characters with arrival time 0. -/
def stamp0 (cs : List Nat) : Input := cs.map (fun c => (0, c))

/-- A stream of 16-byte zero data records totalling `n` bytes, then EOF. -/
def capRecordsGo : Nat → Nat → Nat → List Nat
  | 0, _, _ => eofChars
  | fuel+1, n, off =>
    if n = 0 then eofChars
    else if 16 ≤ n then
      recordChars off 0 (List.replicate 16 0) ++ capRecordsGo fuel (n - 16) (off + 16)
    else recordChars off 0 (List.replicate n 0) ++ eofChars

/-- Input loading exactly `n` data bytes then EOF, all characters at time 0. -/
def capInput (n : Nat) : Input := stamp0 (capRecordsGo (n / 16 + 1) n 0)

/-- The 3-data-byte record followed by a standard EOF record (claim C1's scenario). -/
def c1Input : Input := stamp0 (recordChars 0 0 [0xAA, 0xBB, 0xCC] ++ eofChars)

/-- A single data record with data byte 0xAB and checksum byte `ck`, then EOF. -/
def c3Input (ck : Nat) : Input :=
  stamp0 ([58, 48, 49, 48, 48, 48, 48, 48, 48] ++ byteChars 0xAB ++ byteChars ck ++ eofChars)

/-- A type-0x02 record with payload 0x10,0x00 and trailing checksum byte `ck`:
":02","0000","02","10","00" followed by the two characters of `ck`. -/
def c3SkipChars (ck : Nat) : List Nat :=
  [58, 48, 50, 48, 48, 48, 48, 48, 50, 49, 48, 48, 48] ++ byteChars ck

/-- Loader-state components the type-2 skip path leaves untouched. -/
def SameCore (m m' : Machine) : Prop :=
  m'.buf = m.buf ∧ m'.writes = m.writes ∧ m'.mem = m.mem ∧
  m'.progSize = m.progSize ∧ m'.currentByte = m.currentByte ∧ m'.adrs = m.adrs

theorem skipLoop_consumes (k : Nat) : ∀ (m : Machine), 2 * k ≤ m.input.length →
    ∃ m', skipLoop k m = .ok m' ∧ m'.input = m.input.drop (2 * k) ∧ SameCore m m' := by
  induction k with
  | zero => exact fun m _ => ⟨m, rfl, rfl, rfl, rfl, rfl, rfl, rfl, rfl⟩
  | succ k ih =>
    rintro ⟨now, input, st, cs, cb, ps, ad, buf, mem, wr, fe⟩ h
    match input with
    | [] => simp at h
    | [x] => simp at h; omega
    | (t0, a) :: (t1, b) :: rest =>
      simp only [List.length_cons] at h
      obtain ⟨m', hrun, hinp, hcore⟩ :=
        ih ⟨max (max now t0) t1, rest, st,
            (cs + (asciiHexToUShort [a, b]).1) % 256, cb, ps, ad, buf, mem, wr, fe⟩
          (show 2 * k ≤ rest.length by omega)
      refine ⟨m', ?_, ?_, hcore⟩
      · exact hrun
      · rw [show 2 * (k + 1) = 2 * k + 1 + 1 by omega]
        simpa using hinp

/-- C1 (code bug evaluated): on a word-width-2 device (`Tiny20`) fed a
3-data-byte record followed by a standard end-of-file record, `writeProgram`
reports success with 3 bytes counted but flushes nothing: the zero-padding
branch sits inside the data-byte loop, which a zero-length EOF record never
enters, so the partly filled accumulator is dropped instead of being padded
and programmed at 0x4000. -/
theorem c1_eof_padding_unreachable :
    writeProgram Tiny20 c1Input = .success 3 [] := by decide

/-- C2 (counterexample): a record of type 0x03 is not skipped — its two payload
bytes are appended to the accumulator and programmed at 0x4000 — and a record
of type 0x02 does not keep the checksum machinery intact: its declared payload
plus one extra pair (its own checksum field) are consumed by the skip loop and
never validated, so a type-2 record carrying the corrupted checksum byte 0x00
(the correct one is 0xEC) is accepted and the session succeeds. -/
theorem c2_counterexample :
    writeProgram Tiny10 (stamp0 (recordChars 0 3 [0xAA, 0xBB] ++ eofChars)) =
      .success 2 [(0x4000, [0xAA, 0xBB])] ∧
    writeProgram Tiny10
      (stamp0 ([58, 48, 50, 48, 48, 48, 48, 48, 50, 49, 48, 48, 48, 48, 48] ++ eofChars)) =
      .success 0 [] := by
  constructor
  · decide
  · decide

/-- C2 (amended): only records of type exactly 0x02 take the skip path, and
that path consumes `linelength + 1` 2-hex-digit pairs — the declared payload
plus the record's own trailing checksum field — never touching the accumulator,
the write log, the programmed memory, or the byte counters; because the
checksum field is consumed too, the stream stays aligned for the next record,
but the record's checksum is never validated (a corrupted checksum field 0xAB
is accepted); records of any type other than 0x00, 0x01, 0x02 are processed as
data records, their payload appended to the accumulator and programmed. -/
theorem c2_nondata_records :
    (∀ (ll : Nat) (m : Machine), 2 * (ll + 1) ≤ m.input.length →
      ∃ m', skipLoop (ll + 1) m = .ok m' ∧
        m'.input = m.input.drop (2 * (ll + 1)) ∧ SameCore m m') ∧
    writeProgram Tiny10
      (stamp0 (recordChars 0 2 [0x10, 0x00] ++ recordChars 0 0 [0xDE, 0xAD] ++ eofChars)) =
      .success 2 [(0x4000, [0xDE, 0xAD])] ∧
    writeProgram Tiny10
      (stamp0 ([58, 48, 50, 48, 48, 48, 48, 48, 50, 49, 48, 48, 48, 65, 66] ++ eofChars)) =
      .success 0 [] ∧
    writeProgram Tiny10 (stamp0 (recordChars 0 4 [0xDE, 0xAD] ++ eofChars)) =
      .success 2 [(0x4000, [0xDE, 0xAD])] :=
  ⟨fun ll m h => skipLoop_consumes (ll + 1) m h, by decide, by decide, by decide⟩

/-- C2 (witness): the amended skip-path statement applied at `linelength = 0`
on a concrete 2-character input. -/
theorem c2_nondata_records_witness :
    ∃ m', skipLoop (0 + 1) (initMachine (stamp0 [48, 48])) = .ok m' ∧
      m'.input = (initMachine (stamp0 [48, 48])).input.drop (2 * (0 + 1)) ∧
      SameCore (initMachine (stamp0 [48, 48])) m' :=
  c2_nondata_records.1 0 (initMachine (stamp0 [48, 48])) (by decide)

/-- C3 (counterexample): the checksum comparison does not guard every record:
a type-0x02 record whose trailing checksum field holds 0x77 — while the
two's-complement of its decoded field sum 0x14 is 0xEC — is accepted and the
session succeeds, because the skip loop consumes the checksum field and the
comparison (which sits inside the non-type-2 branch) is never reached. -/
theorem c3_counterexample :
    writeProgram Tiny10 (stamp0 (c3SkipChars 0x77 ++ eofChars)) = .success 0 [] ∧
    (0x77 : Nat) ≠ asmComInc (0x02 + 0x00 + 0x00 + 0x02 + 0x10 + 0x00) := by
  constructor
  · decide
  · decide

/-- C3 (amended): the AVR `com`+`inc` checksum finalization agrees with the
portable two's complement `(~sum + 1) & 0xFF` on every running sum; for records
taken through the non-skip branch (type other than 0x02, here a data record
whose decoded fields sum to 0xAC) the loader continues past the record if and
only if the received checksum byte equals that finalized value, any other byte
aborting with a checksum error reporting calculated and received values; but a
type-0x02 record is accepted whatever its checksum field holds — its trailing
field is consumed by the skip loop and never compared. -/
theorem c3_checksum_validation :
    (∀ s : Nat, asmComInc s = portableTwoComp s) ∧
    (∀ ck : Fin 256, writeProgram Tiny10 (c3Input ck.val) =
      if ck.val = asmComInc (0x01 + 0x00 + 0x00 + 0x00 + 0xAB) then .success 1 []
      else .errChecksum (asmComInc (0x01 + 0x00 + 0x00 + 0x00 + 0xAB)) ck.val) ∧
    (∀ ck : Fin 256,
      writeProgram Tiny10 (stamp0 (c3SkipChars ck.val ++ eofChars)) = .success 0 []) := by
  refine ⟨?_, by decide, by decide⟩
  intro s
  have h : s % 256 < 256 := Nat.mod_lt _ (by norm_num)
  have hx : ∀ r : Fin 256, (r.val ^^^ 0xFF) = 255 - r.val := by decide
  have hs := hx ⟨s % 256, h⟩
  simp only [asmComInc, portableTwoComp, hs]
  omega

/-- C4: for every byte value 0-255, feeding the two SPI transfers produced by
`tpi_send_byte` to `tpi_receive_byte` reconstructs the original byte, and the
parity bit embedded by the encoder (bit 0 of `par`) equals the byte's bit
weight modulo 2, i.e. correct even parity for even- and odd-weight inputs. -/
theorem c4_frame_roundtrip :
    ∀ d : Fin 256,
      tpi_receive_byte 4 [tpi_send_lo d.val, tpi_send_hi d.val] = some d.val ∧
      parByte d.val &&& 1 = bitWeight d.val % 2 := by decide

/-- C7: decoding is invariant to the inter-frame idle gap: 3 or 7 extra idle
bits before the start bit yield the same decoded byte as 0 extra idle bits,
which is the transmitted byte. -/
theorem c7_idle_gap_invariance :
    ∀ d : Fin 256,
      tpi_receive_byte 16 (mkStream 3 d.val) = tpi_receive_byte 16 (mkStream 0 d.val) ∧
      tpi_receive_byte 16 (mkStream 7 d.val) = tpi_receive_byte 16 (mkStream 0 d.val) ∧
      tpi_receive_byte 16 (mkStream 0 d.val) = some d.val := by decide

/-- C8: identification reads three auto-incremented bytes starting at 0x3FC0;
the signature 0x1E,0x90,0x03 selects the ATtiny10 type code, whose derived
profile is word width 1 and capacity 1024 bytes; the table has exactly 8
entries, each matched by the lookup; and an unmatched tuple such as
0x1E,0x99,0x99 matches nothing and leaves the previous type unchanged. -/
theorem c8_device_identification :
    (∀ i1 i2 i3 : Nat, checkID_lookup i1 i2 i3 ≠ none →
      (i1, i2, i3) ∈ signatureTable.map Prod.fst) ∧
    checkID_lookup 0x1E 0x90 0x03 = some Tiny10 ∧
    (if Tiny10 ≠ Tiny4_5 then Tiny10 else 1) = 1 ∧
    (if Tiny10 ≠ Tiny4_5 then Tiny10 * 1024 else 512) = 1024 ∧
    (∀ prev : Nat, checkID_update prev 0x1E 0x90 0x03 = Tiny10) ∧
    checkID_lookup 0x1E 0x99 0x99 = none ∧
    (∀ prev : Nat, checkID_update prev 0x1E 0x99 0x99 = prev) ∧
    signatureTable.length = 8 ∧
    (signatureTable.all fun e => checkID_lookup e.1.1 e.1.2.1 e.1.2.2 == some e.2) = true ∧
    checkID_readAddrs = [0x3FC0, 0x3FC1, 0x3FC2] := by
  refine ⟨?_, by decide, by decide, by decide, fun prev => rfl, by decide,
    fun prev => rfl, by decide, by decide, by decide⟩
  intro i1 i2 i3 h
  unfold checkID_lookup at h
  split_ifs at h with h1 h2 h3 h4 h5 h6 h7 h8
  · obtain ⟨e1, e2, e3⟩ := h1; subst e1; subst e2; subst e3; decide
  · obtain ⟨e1, e2, e3⟩ := h2; subst e1; subst e2; subst e3; decide
  · obtain ⟨e1, e2, e3⟩ := h3; subst e1; subst e2; subst e3; decide
  · obtain ⟨e1, e2, e3⟩ := h4; subst e1; subst e2; subst e3; decide
  · obtain ⟨e1, e2, e3⟩ := h5; subst e1; subst e2; subst e3; decide
  · obtain ⟨e1, e2, e3⟩ := h6; subst e1; subst e2; subst e3; decide
  · obtain ⟨e1, e2, e3⟩ := h7; subst e1; subst e2; subst e3; decide
  · obtain ⟨e1, e2, e3⟩ := h8; subst e1; subst e2; subst e3; decide
  · exact absurd rfl h

/-- C8 (witness): the not-in-table statement applied at the first table entry. -/
theorem c8_device_identification_witness :
    ((0x1E : Nat), (0x8F : Nat), (0x0A : Nat)) ∈ signatureTable.map Prod.fst :=
  c8_device_identification.1 0x1E 0x8F 0x0A (by decide)

theorem loadMBindError {α β : Type} (e : LoadResult) (f : α → LoadM β) :
    (Except.error e >>= f : LoadM β) = Except.error e := rfl

theorem loadMBindOk {α β : Type} (a : α) (f : α → LoadM β) :
    (Except.ok a >>= f : LoadM β) = f a := rfl

theorem writeProgramGo_error (words cap fuel : Nat) (m : Machine) (e : LoadResult)
    (hfe : m.fileEnd = false) (h : recordStep words cap m = .error e) :
    writeProgramGo words cap (fuel + 1) m = e := by
  simp [writeProgramGo, hfe, h]

/-- C5 (counterexample): input that delivers only the leading colon and then
nothing makes the loader block forever inside `Sread` (the length-field read)
instead of aborting with the timeout error. -/
theorem c5_counterexample :
    writeProgram Tiny10 [(0, 58)] = .hang ∧ LoadResult.hang ≠ .errTimeout := by decide

/-- C5 (amended): the waits before a record's first character, before each
2-hex-digit data byte, and before the checksum field are bounded by the
20000 ms timeout and abort with the timeout error; but the field reads issued
through bare `Sread` (the colon check, length, address, and type fields, and
the second digit of each pair) block forever when no character arrives, and
accept a character arriving arbitrarily late without any timeout. -/
theorem c5_input_wait_bounds :
    (∀ t : Nat, 20000 < t → writeProgram Tiny10 [(t, 58)] = .errTimeout) ∧
    writeProgram Tiny10 [(0, 58)] = .hang ∧
    writeProgram Tiny10
      (stamp0 [58, 48, 49, 48, 48, 48, 48, 48, 48] ++ [(30000, 65), (30000, 65)]) =
      .errTimeout ∧
    writeProgram Tiny10
      (stamp0 [58, 48, 48, 48, 48, 48, 48, 48, 48] ++ [(30000, 48), (30000, 48)]) =
      .errTimeout ∧
    writeProgram Tiny10
      ([(0, 58)] ++ ([48, 48, 48, 48, 48, 48, 48, 48, 48, 48] ++ eofChars).map
        (fun c => (1000000, c))) = .success 0 [] := by
  refine ⟨?_, by decide, by decide, by decide, by decide⟩
  intro t ht
  have h1 : ¬ (t ≤ 0) := by omega
  have hrs : recordStep 1 1024 (initMachine [(t, 58)]) = .error .errTimeout := by
    simp [recordStep, initMachine, waitAvail, timeoutMs, h1, ht, loadMBindError, loadMBindOk]
  show writeProgramGo 1 1024 ([(t, 58)].length + 1) (initMachine [(t, 58)]) = .errTimeout
  exact writeProgramGo_error 1 1024 [(t, 58)].length _ _ rfl hrs

/-- C5 (witness): the timeout-bounded record-start wait applied at a character
arriving at 20001 ms. -/
theorem c5_input_wait_bounds_witness :
    writeProgram Tiny10 [(20001, 58)] = .errTimeout :=
  c5_input_wait_bounds.1 20001 (by norm_num)

/-- C10: the malformed-record error is raised exactly when the two characters
tried for the leading colon both differ from it; characters outside the hex
digits are never an error: a record carrying lowercase hex characters is
accepted whole, the decoder folding the raw character codes into an unspecified
byte (here 113) that is programmed; and `asciiHexToUShort` destructively
rewrites its caller's buffer in place (characters replaced by digit values). -/
theorem c10_colon_check_and_decoder :
    (∀ c1 c2 : Nat, writeProgram Tiny10 [(0, c1), (0, c2)] = .errHex ↔
      (c1 ≠ 58 ∧ c2 ≠ 58)) ∧
    writeProgram Tiny10
      (stamp0 ([58, 48, 50, 48, 48, 48, 48, 48, 48, 97, 97, 97, 97, 49, 67] ++ eofChars)) =
      .success 2 [(0x4000, [113, 113])] ∧
    asciiHexToUShort [52, 49] = (0x41, [4, 1]) ∧
    ([4, 1] : List Nat) ≠ ([52, 49] : List Nat) := by
  refine ⟨?_, by decide, by decide, by decide⟩
  intro c1 c2
  by_cases h1 : c1 = 58
  · subst h1
    have hr : writeProgram Tiny10 [(0, 58), (0, c2)] = .hang := by
      simp [writeProgram, writeProgramGo, recordStep, waitAvail, readPair, sread,
            initMachine, timeoutMs, loadMBindOk, loadMBindError, Tiny10, Tiny4_5]
    simp [hr]
  · by_cases h2 : c2 = 58
    · subst h2
      have hr : writeProgram Tiny10 [(0, c1), (0, 58)] = .hang := by
        simp [writeProgram, writeProgramGo, recordStep, waitAvail, readPair, sread,
              initMachine, timeoutMs, loadMBindOk, loadMBindError, Tiny10, Tiny4_5, h1]
      simp [hr]
    · have hr : writeProgram Tiny10 [(0, c1), (0, c2)] = .errHex := by
        simp [writeProgram, writeProgramGo, recordStep, waitAvail, readPair, sread,
              initMachine, timeoutMs, loadMBindOk, loadMBindError, Tiny10, Tiny4_5, h1, h2]
      simp [hr, h1, h2]

/-- C9 (counterexample): `send_skey` of the 64-bit key value 0 emits only the
SKEY opcode and no key bytes at all, not 8 of them. -/
theorem c9_counterexample :
    send_skey 0 = [0xE0] ∧ (send_skey 0).length ≠ 9 := by
  have h : skey_bytes 0 = [] := by rw [skey_bytes]; rfl
  simp [send_skey, h]

/-- C9 (amended): for a 64-bit key whose most significant byte is nonzero
(which holds for the fixed NVM enable key), `send_skey` emits the SKEY opcode
followed by exactly the 8 key bytes, least-significant byte first; smaller keys
stop at the highest nonzero byte. -/
theorem c9_key_bytes (key : Nat) (h1 : 2 ^ 56 ≤ key) (h2 : key < 2 ^ 64) :
    send_skey key = [0xE0, key % 256, key / 2 ^ 8 % 256, key / 2 ^ 16 % 256,
      key / 2 ^ 24 % 256, key / 2 ^ 32 % 256, key / 2 ^ 40 % 256,
      key / 2 ^ 48 % 256, key / 2 ^ 56 % 256] := by
  have h1' : 72057594037927936 ≤ key := by norm_num at h1; exact h1
  have h2' : key < 18446744073709551616 := by norm_num at h2; exact h2
  have e : ∀ k : Nat, k ≠ 0 → skey_bytes k = (k % 256) :: skey_bytes (k / 256) := by
    intro k hk
    rw [skey_bytes]
    simp [hk]
  have h0 : skey_bytes 0 = [] := by rw [skey_bytes]; rfl
  unfold send_skey
  rw [e key (by omega), e (key / 256) (by omega), e (key / 256 / 256) (by omega),
      e (key / 256 / 256 / 256) (by omega),
      e (key / 256 / 256 / 256 / 256) (by omega),
      e (key / 256 / 256 / 256 / 256 / 256) (by omega),
      e (key / 256 / 256 / 256 / 256 / 256 / 256) (by omega),
      e (key / 256 / 256 / 256 / 256 / 256 / 256 / 256) (by omega),
      show key / 256 / 256 / 256 / 256 / 256 / 256 / 256 / 256 = 0 by omega, h0]
  simp only [List.cons.injEq]
  norm_num
  all_goals omega

set_option maxHeartbeats 4000000 in
/-- C6: for the smallest family variant (type `Tiny4_5`, capacity 512 bytes),
loading exactly 512 data bytes succeeds with that byte count and loading 513
aborts with the capacity error; in general, for every device word width and
capacity, the data byte that takes the session counter past the capacity
aborts with the capacity error the moment it is consumed; and the capacity
the loader enforces is 1024 x word-width bytes for the regular family members
and 512 bytes for the smallest variant. -/
theorem c6_capacity_boundary :
    resultProgSize (writeProgram Tiny4_5 (capInput 512)) = some 512 ∧
    writeProgram Tiny4_5 (capInput 513) = .errTooLarge ∧
    (∀ (words cap k : Nat) (m : Machine) (t0 c0 t1 c1 : Nat) (rest : Input),
      m.input = (t0, c0) :: (t1, c1) :: rest → t0 ≤ m.now → cap < m.progSize + 1 →
      dataLoop words cap (k + 1) m = .error .errTooLarge) ∧
    (if Tiny10 ≠ Tiny4_5 then Tiny10 * 1024 else 512) = 1024 ∧
    (if Tiny20 ≠ Tiny4_5 then Tiny20 * 1024 else 512) = 2048 ∧
    (if Tiny40 ≠ Tiny4_5 then Tiny40 * 1024 else 512) = 4096 ∧
    (if Tiny4_5 ≠ Tiny4_5 then Tiny4_5 * 1024 else 512) = 512 := by
  refine ⟨by decide, by decide, ?_, by decide, by decide, by decide, by decide⟩
  intro words cap k m t0 c0 t1 c1 rest hin ht0 hcap
  obtain ⟨now, input, st, cs, cb, ps, ad, buf, mem, wr, fe⟩ := m
  simp only [Machine.input] at hin
  subst hin
  simp only [Machine.now] at ht0
  simp only [Machine.progSize] at hcap
  simp [dataLoop, waitAvail, readPair, sread, loadMBindOk, loadMBindError, ht0, hcap]

/-- C6 (witness): the capacity-crossing statement applied to a concrete state
with the counter already at 512 on a 512-byte device. -/
theorem c6_capacity_boundary_witness :
    dataLoop 1 512 (0 + 1)
      { now := 0, input := [(0, 48), (0, 48)], startTime := 0, checkSum := 0,
        currentByte := 0, progSize := 512, adrs := 0x4000,
        buf := List.replicate 16 0, mem := [], writes := [], fileEnd := false } =
      .error .errTooLarge :=
  c6_capacity_boundary.2.2.1 1 512 0 _ 0 48 0 48 [] rfl (by decide) (by decide)

/-- C9 (witness): the amended statement applied at the fixed NVM enable key. -/
theorem c9_key_bytes_witness :
    send_skey NVM_PROGRAM_ENABLE =
      [0xE0, 0xFF, 0x88, 0xD8, 0xCD, 0x45, 0xAB, 0x89, 0x12] := by
  have h := c9_key_bytes NVM_PROGRAM_ENABLE (by norm_num [NVM_PROGRAM_ENABLE])
    (by norm_num [NVM_PROGRAM_ENABLE])
  rw [h]
  norm_num [NVM_PROGRAM_ENABLE]

end TPIProg
